import Mathlib

/-!
Verification development for the medical-codex-pipeline repository.

The repository is a collection of batch ETL scripts that normalize medical
coding reference files (HCPCS, ICD-10-CM, ICD-10-WHO, LOINC, NPI, RxNorm/NPI,
SNOMED) into records with three fields: code, description, last_updated.

This file gives a shallow embedding of the relevant functions:
strings are Lean strings operated on through their char lists (Python string
methods such as strip/lower/upper and the regexes of the scripts are modelled
character by character over ASCII, which is the alphabet of all the inputs the
scripts validate), pandas DataFrames become a headers-plus-rows structure, and
fallible code returns Except/Option.  File I/O and logging are out of scope;
functions that in the scripts read a file take the file content (a list of
lines, or an already-parsed structure) as an argument, and the result of
now_utc_iso() at run time is passed to the cleaning stages as a parameter.
-/

namespace MedicalCodex

/-- ASCII whitespace, the characters matched by the Python regex class and
by str.strip() on the ASCII inputs in question. -/
def isPySpace (c : Char) : Bool :=
  c == ' ' || c == '\t' || c == '\n' || c == '\x0d' || c == '\x0b' || c == '\x0c'

/-- ASCII decimal digit, the characters kept by re.sub of non-digits and
matched by the regex digit class on these inputs. -/
def pyIsDigit (c : Char) : Bool := decide (48 ≤ c.toNat ∧ c.toNat ≤ 57)

/-- Word character for the regex word-boundary assertion. -/
def isWordChar (c : Char) : Bool := c.isAlphanum || c == '_'

/-- Strip ASCII whitespace from both ends of a char list. -/
def stripList (l : List Char) : List Char :=
  ((l.dropWhile isPySpace).reverse.dropWhile isPySpace).reverse

/-- Strip ASCII whitespace from the right end of a char list. -/
def rstripList (l : List Char) : List Char :=
  (l.reverse.dropWhile isPySpace).reverse

/-- Python str.strip(). -/
def pyStrip (s : String) : String := ⟨stripList s.data⟩

/-- Python str.lower() on ASCII data. -/
def pyLower (s : String) : String := ⟨s.data.map Char.toLower⟩

/-- Python str.upper() on ASCII data. -/
def pyUpper (s : String) : String := ⟨s.data.map Char.toUpper⟩

/-- First character class of the ICD-10 grammar: an uppercase letter other
than U. -/
def isIcdFirst (c : Char) : Bool := c.isUpper && !(c == 'U')

/-- Tail character class of the ICD-10 grammar: digit or uppercase letter. -/
def isIcdTail (c : Char) : Bool := pyIsDigit c || c.isUpper

/-- Full-string match of the ICD-10 grammar used across the scripts:
one letter A-T or V-Z, a digit, a digit-or-letter, then optionally a dot
followed by one to four digit-or-letter characters. -/
def icdFullmatch (s : String) : Bool :=
  match s.data with
  | c1 :: c2 :: c3 :: rest =>
    isIcdFirst c1 && pyIsDigit c2 && isIcdTail c3 &&
      (match rest with
       | [] => true
       | '.' :: tail =>
         decide (1 ≤ tail.length) && decide (tail.length ≤ 4) && tail.all isIcdTail
       | _ => false)
  | _ => false

/-- Split a char list at position k when the first k characters are in the
ICD tail class. -/
def icdSuffixSplit (tail : List Char) (k : Nat) : Option (List Char × List Char) :=
  let pre := tail.take k
  if pre.length = k && pre.all isIcdTail then some (pre, tail.drop k) else none

/-- Match the ICD-10 grammar at the start of a char list, mirroring the
regex engine: the optional dot-suffix is greedy, backtracking from four
characters down to one and finally to the empty option, and `ok` is the
test the regex applies to the remaining input right after the group (a
word-boundary assertion, or a following whitespace class).  Returns the
matched token and the rest of the input. -/
def icdLead (l : List Char) (ok : List Char → Bool) : Option (List Char × List Char) :=
  match l with
  | c1 :: c2 :: c3 :: rest =>
    if isIcdFirst c1 && pyIsDigit c2 && isIcdTail c3 then
      match rest with
      | '.' :: tail =>
        match List.findSome? (fun k =>
            match icdSuffixSplit tail k with
            | some (pre, r2) => if ok r2 then some ([c1, c2, c3, '.'] ++ pre, r2) else none
            | none => none) [4, 3, 2, 1] with
        | some res => some res
        | none => if ok rest then some ([c1, c2, c3], rest) else none
      | _ => if ok rest then some ([c1, c2, c3], rest) else none
    else none
  | _ => none

/-- Word-boundary test after a token: end of input or a non-word character. -/
def bBoundary (rest : List Char) : Bool :=
  match rest with
  | [] => true
  | c :: _ => !isWordChar c

/-- Boundary used where the regex follows the code group with one-or-more
whitespace: the next character must exist and be whitespace. -/
def wsBoundary (rest : List Char) : Bool :=
  match rest with
  | [] => false
  | c :: _ => isPySpace c

/-- remove_leading_code from src/scripts/icd10who_processor.py: delete a
leading ICD-code-shaped token (with a word boundary) plus any following
colon, hyphen or whitespace, then strip. -/
def remove_leading_code (txt : String) : String :=
  match icdLead txt.data bBoundary with
  | some (_, rest) =>
    pyStrip ⟨rest.dropWhile (fun c => c == ':' || isPySpace c || c == '-')⟩
  | none => pyStrip txt

/-- Luhn doubling step: double the digit and subtract 9 when the result
exceeds 9. -/
def dblDigit (d : Nat) : Nat := if 9 < 2 * d then 2 * d - 9 else 2 * d

/-- The running total of is_valid_npi: fold over the digit list with the
alternating doubling flag, the flag starting as given for the head. -/
def luhnSum : List Nat → Bool → Nat
  | [], _ => 0
  | d :: rest, dbl => (if dbl then dblDigit d else d) + luhnSum rest (!dbl)

/-- The digits remaining in a candidate NPI after re.sub deletes every
non-digit character, as numeric values. -/
def npiDigits (npi : String) : List Nat :=
  (npi.data.filter pyIsDigit).map (fun c => c.toNat - 48)

/-- The acceptance test of is_valid_npi on the ten-digit list: the check
digit of the base 80840 followed by all but the last digit equals the
last digit. -/
def luhnCheckOK (s : List Nat) : Bool :=
  (10 - luhnSum ([8, 0, 8, 4, 0] ++ s.dropLast).reverse true % 10) % 10 == s.getD 9 0

/-- is_valid_npi from src/scripts/npi_processor.py (the copy in
src/scripts/rxnorm_processor.py is textually identical): strip non-digits,
require exactly ten digits, prepend 80840 to the first nine, Luhn-sum the
reversed base doubling from the rightmost digit, and compare the check
digit with the tenth digit.  The python conjunct s.isdigit() is vacuously
true after the stripping and is not modelled. -/
def is_valid_npi (npi : String) : Bool :=
  let s := npiDigits npi
  if s.length = 10 then luhnCheckOK s else false

/-- The Luhn total phrased the way the specification describes it: index the
base from the rightmost digit and double the digits at even offsets. -/
def luhnSpecSum (base : List Nat) : Nat :=
  ∑ p ∈ Finset.range base.length,
    (if p % 2 = 0 then dblDigit (base.reverse.getD p 0) else base.reverse.getD p 0)

/-- The NPI acceptance condition phrased from the specification text: after
stripping non-digits exactly ten digits remain, the 14-digit base is 80840
followed by the first nine digits, and the Luhn check digit of that base
equals the tenth digit. -/
def npiSpecValid (npi : String) : Bool :=
  let s := npiDigits npi
  if s.length = 10 then
    let base : List Nat := [8, 0, 8, 4, 0] ++ s.take 9
    ((10 - luhnSpecSum base % 10) % 10) == s.getD 9 0
  else false

instance {ε α : Type} [DecidableEq ε] [DecidableEq α] : DecidableEq (Except ε α) :=
  fun a b =>
    match a, b with
    | .ok x, .ok y =>
      if h : x = y then isTrue (by rw [h]) else isFalse (by intro hc; injection hc; contradiction)
    | .error x, .error y =>
      if h : x = y then isTrue (by rw [h]) else isFalse (by intro hc; injection hc; contradiction)
    | .ok _, .error _ => isFalse (fun hc => Except.noConfusion hc)
    | .error _, .ok _ => isFalse (fun hc => Except.noConfusion hc)

/-- A loaded tabular dataset: header names and string-valued rows. -/
structure DataFrame where
  headers : List String
  rows : List (List String)
deriving DecidableEq

/-- Value of column c in a row: the cell at the position of the first
header named c (empty when the column is missing or the row is short). -/
def rowCell (df : DataFrame) (row : List String) (c : String) : String :=
  row.getD (df.headers.indexOf c) ""

/-- The values of one column. -/
def colValues (df : DataFrame) (c : String) : List String :=
  df.rows.map (fun r => rowCell df r c)

/-- A standardized output record. -/
structure Row3 where
  code : String
  description : String
  last_updated : String
deriving DecidableEq

/-- drop_duplicates keyed by `key`, keeping the first occurrence, with the
accumulator of keys already seen. -/
def dedupBy (key : α → String) : List α → List String → List α
  | [], _ => []
  | x :: xs, seen =>
    if seen.contains (key x) then dedupBy key xs seen
    else x :: dedupBy key xs (key x :: seen)

/-- pandas drop_duplicates on a key, keeping the first occurrence. -/
def drop_duplicates (key : α → String) (l : List α) : List α := dedupBy key l []

/-- Python truthiness test on an optional column name: None and the empty
string are both falsy. -/
def falsyCol (o : Option String) : Bool :=
  match o with
  | none => true
  | some c => c == ""

/-- The left-to-right scan shared by the statistical column detectors:
keep the first column whose score strictly exceeds the best so far, the
best starting at zero.  Scores are per-column match counts; as every
column has the same number of rows, comparing counts is the same as
comparing the mean fractions the scripts compute, and with zero rows every
count is zero so no column is ever selected (the scripts get NaN rates
there, and NaN comparisons are false). -/
def scanBest (headers : List String) (score : String → Nat) : Option String :=
  (headers.foldl
    (fun acc c => if score c > acc.2 then (some c, score c) else acc)
    ((none : Option String), 0)).1

/-- Count of values that, stripped, fully match the ten-digit regex. -/
def tenDigitCount (vals : List String) : Nat :=
  (vals.filter (fun v =>
    (pyStrip v).data.length = 10 && (pyStrip v).data.all pyIsDigit)).length

def NPI_CANDIDATES : List String := ["NPI", "npi", "Npi"]

/-- The NPI column choice of _detect_columns in src/scripts/npi_processor.py
(the same candidate-then-scan logic reappears inside clean_npi_data): first
candidate name present in the headers, else the statistical scan; a scan
result that is falsy (missing, or a column literally named by the empty
string) raises KeyError. -/
def detect_npi_col (df : DataFrame) : Except String String :=
  let cand := NPI_CANDIDATES.find? (fun c => df.headers.contains c)
  let npiCol : Option String :=
    match cand with
    | some c => some c
    | none => scanBest df.headers (fun c => tenDigitCount (colValues df c))
  match npiCol with
  | none => .error "NPI column not found"
  | some c => if c == "" then .error "NPI column not found" else .ok c

def ICD_CODE_CANDS : List String :=
  ["ICD-10-CM Code", "ICD-10-CM", "Code", "code", "icd10cm"]

def ICD_DESC_CANDS : List String :=
  ["Long Description", "Description", "Title", "Short Description",
   "short_description", "long_description"]

/-- Count of values that, stripped and upper-cased, fully match the ICD-10
grammar. -/
def icdMatchCount (vals : List String) : Nat :=
  (vals.filter (fun v => icdFullmatch (pyUpper (pyStrip v)))).length

/-- Code-column choice of clean_icd10cm_data: preferred names first, else
the scan for the column with the highest fraction of ICD-looking codes. -/
def detectIcdCodeCol (df : DataFrame) : Option String :=
  match ICD_CODE_CANDS.find? (fun c => df.headers.contains c) with
  | some c => some c
  | none => scanBest df.headers (fun c => icdMatchCount (colValues df c))

/-- Python max over a non-empty list with a key function: the first element
whose key is maximal, since the comparison used is strict. -/
def pyMaxBy (l : List String) (score : String → Nat) : Option String :=
  match l with
  | [] => none
  | x :: xs => some (xs.foldl (fun best c => if score c > score best then c else best) x)

/-- Sum of the string lengths of a column, the numerator of the mean
length the script compares. -/
def lenSum (vals : List String) : Nat := (vals.map (fun v => v.data.length)).sum

/-- Description-column choice of clean_icd10cm_data: preferred names first,
else the most texty column among those not named like the code column. -/
def detectIcdDescCol (df : DataFrame) (codeCol : Option String) : Option String :=
  match ICD_DESC_CANDS.find? (fun c => df.headers.contains c) with
  | some c => some c
  | none =>
    pyMaxBy
      (df.headers.filter (fun c =>
        match codeCol with
        | none => true
        | some cc => !(c == cc)))
      (fun c => lenSum (colValues df c))

/-- clean_icd10cm_data from src/scripts/icd10cm_processor.py: detect the
code and description columns (KeyError when either detection result is
falsy), strip and upper-case codes, strip descriptions, keep rows whose
code fully matches the ICD-10 grammar and whose description is non-empty,
deduplicate by code, and stamp the run timestamp. -/
def clean_icd10cm_data (df : DataFrame) (now : String) : Except String (List Row3) :=
  let codeCol := detectIcdCodeCol df
  let descCol := detectIcdDescCol df codeCol
  if falsyCol codeCol || falsyCol descCol then
    .error "Need code and description columns"
  else
    let cc := codeCol.getD ""
    let dc := descCol.getD ""
    let pairs := df.rows.map (fun r =>
      (pyUpper (pyStrip (rowCell df r cc)), pyStrip (rowCell df r dc)))
    let kept := pairs.filter (fun p => icdFullmatch p.1 && p.2 ≠ "")
    let ded := drop_duplicates (fun p => p.1) kept
    .ok (ded.map (fun p => ⟨p.1, p.2, now⟩))

/-- Split a string on a separator character. -/
def splitOnChar (sep : Char) (s : String) : List String :=
  (s.data.splitOn sep).map (fun l => ⟨l⟩)

/-- Model of pd.read_csv with a one-character separator and the first row
as headers: blank lines are skipped, short rows are padded with empty
fields, a row with more fields than the header raises (none), and an empty
file raises.  Quoting is not modelled, as no claim depends on it. -/
def parseDelim (sep : Char) (lines : List String) : Option DataFrame :=
  match lines.filter (fun s => s ≠ "") with
  | [] => none
  | h :: rest =>
    let headers := splitOnChar sep h
    let rows := rest.map (splitOnChar sep)
    if rows.all (fun r => r.length ≤ headers.length) then
      some ⟨headers, rows.map (fun r => r ++ List.replicate (headers.length - r.length) "")⟩
    else none

/-- The try-tab-except-comma sequence at the top of load_icd10cm_data: the
comma parse runs only when the tab parse raises. -/
def attemptedDelim (lines : List String) : Option DataFrame :=
  match parseDelim '\t' lines with
  | some df => some df
  | none => parseDelim ',' lines

/-- First index at which two consecutive whitespace characters start. -/
def findGap : List Char → Option Nat
  | c1 :: c2 :: rest =>
    if isPySpace c1 && isPySpace c2 then some 0
    else (findGap (c2 :: rest)).map (· + 1)
  | _ => none

/-- The tail of the long fixed-width pattern after the validity digit,
written out from the regex semantics of one-or-more whitespace (greedy),
a lazy group, a two-or-more whitespace separator (greedy) and a lazy group
before optional trailing whitespace: with w leading whitespace characters
and T the rest, the greedy-then-backtracking search succeeds at the first
internal two-whitespace gap of T, and otherwise re-uses two of the leading
whitespace characters (possible only when w is at least three, the group
before the gap then being empty). -/
def tailLong (r : List Char) : Option (List Char × List Char) :=
  let w := (r.takeWhile isPySpace).length
  let T := r.drop w
  if w = 0 then none
  else
    match findGap T with
    | some i =>
      let m := ((T.drop i).takeWhile isPySpace).length
      some (T.take i, rstripList (T.drop (i + m)))
    | none => if 3 ≤ w then some ([], rstripList T) else none

/-- The tail of the short fixed-width pattern after the validity digit:
one-or-more whitespace then a group ending in a non-whitespace character,
so the group is the rest of the line with trailing whitespace removed. -/
def tailShort (r : List Char) : Option (List Char) :=
  let w := (r.takeWhile isPySpace).length
  let T := r.drop w
  if w = 0 then none
  else if T = [] then none else some (rstripList T)

/-- Match one line against the fixed-width patterns of load_icd10cm_data:
the shared order-code-validity head, then the long tail and, failing that,
the short tail (in which case the long description re-uses the short one).
Returns the five row fields in output order, with the strips and the
upper-casing the row constructor applies. -/
def matchFixedWidth (s : String) : Option (List String) :=
  let l1 := s.data.dropWhile isPySpace
  let order := l1.takeWhile pyIsDigit
  if order = [] then none
  else
    let l2 := l1.drop order.length
    let w1 := (l2.takeWhile isPySpace).length
    if w1 = 0 then none
    else
      match icdLead (l2.drop w1) wsBoundary with
      | none => none
      | some (code, l4) =>
        let w2 := (l4.takeWhile isPySpace).length
        if w2 = 0 then none
        else
          match l4.drop w2 with
          | [] => none
          | v :: l5 =>
            if v == '0' || v == '1' then
              match tailLong l5 with
              | some (sd, ld) =>
                some [pyStrip ⟨order⟩, pyUpper (pyStrip ⟨code⟩), pyStrip ⟨[v]⟩,
                      pyStrip ⟨sd⟩, pyStrip ⟨ld⟩]
              | none =>
                match tailShort l5 with
                | some d =>
                  some [pyStrip ⟨order⟩, pyUpper (pyStrip ⟨code⟩), pyStrip ⟨[v]⟩,
                        pyStrip ⟨d⟩, pyStrip ⟨d⟩]
                | none => none
            else none

/-- The rows the fixed-width fallback of load_icd10cm_data collects: each
non-blank line matched against the two patterns, non-matching lines
silently skipped. -/
def fixedWidthRows (lines : List String) : List (List String) :=
  lines.filterMap (fun raw =>
    if pyStrip raw = "" then none else matchFixedWidth raw)

def FIXED_HEADERS : List String :=
  ["Order", "ICD-10-CM Code", "Valid", "Short Description", "Long Description"]

/-- load_icd10cm_data from src/scripts/icd10cm_processor.py, the file
content given as its lines: delimited parse first (tab, then comma on a
tab failure); a delimited dataset with more than one column is returned
with trimmed headers; otherwise the fixed-width fallback runs, raising
RuntimeError when it parses no row at all. -/
def load_icd10cm_data (lines : List String) : Except String DataFrame :=
  match attemptedDelim lines with
  | none => .error "read_csv raised"
  | some df =>
    if 1 < df.headers.length then .ok ⟨df.headers.map pyStrip, df.rows⟩
    else
      let rows := fixedWidthRows lines
      if rows = [] then
        .error "Could not parse any rows from fixed-width ICD-10-CM order file."
      else .ok ⟨FIXED_HEADERS, rows⟩

/-- clean_snomed_data from src/scripts/snomed_processor.py: find the
conceptId and term columns case-insensitively (the lower-cased lookup
dict keeps the last column on a collision), optionally keep active rows
and English rows, strip code and term, keep codes of six to eighteen
digits with non-empty descriptions, deduplicate by code, stamp the run
timestamp. -/
def clean_snomed_data (df : DataFrame) (now : String) : Except String (List Row3) :=
  let conceptCol := df.headers.reverse.find? (fun c => pyLower c = "conceptid")
  let termCol := df.headers.reverse.find? (fun c => pyLower c = "term")
  match conceptCol, termCol with
  | some cc, some tc =>
    let rows1 :=
      if df.headers.contains "active" then
        df.rows.filter (fun r => rowCell df r "active" == "1")
      else df.rows
    let langCol := df.headers.find? (fun c => pyLower c = "languagecode")
    let rows2 :=
      match langCol with
      | some lc => rows1.filter (fun r => pyLower (rowCell df r lc) == "en")
      | none => rows1
    let pairs := rows2.map (fun r => (pyStrip (rowCell df r cc), pyStrip (rowCell df r tc)))
    let kept := pairs.filter (fun p =>
      (decide (6 ≤ p.1.data.length) && decide (p.1.data.length ≤ 18) &&
       p.1.data.all pyIsDigit) && p.2 ≠ "")
    .ok ((drop_duplicates (fun p => p.1) kept).map (fun p => ⟨p.1, p.2, now⟩))
  | _, _ => .error "Need conceptId and term"

def ORG_COLS : List String :=
  ["Provider Organization Name (Legal Business Name)",
   "Provider Organization Name",
   "provider_organization_name_legal_business_name",
   "Org Name"]

def NAME_COLS : List String :=
  ["Provider Name Prefix Text",
   "Provider First Name",
   "Provider Middle Name",
   "Provider Last Name (Legal Name)",
   "Provider Name Suffix Text"]

/-- Join the non-empty stripped parts with single spaces, as the
row-building lambda of the NPI scripts does. -/
def joinNameParts : List String → String
  | [] => ""
  | [x] => x
  | x :: xs => x ++ " " ++ joinNameParts xs

/-- Description series built by clean_npi_data in
src/scripts/npi_processor.py: the first organization column if present,
else the space-joined non-empty name parts if any name column is present,
else empty. -/
def npiDescColumn (df : DataFrame) : List String :=
  match ORG_COLS.find? (fun c => df.headers.contains c) with
  | some oc => colValues df oc
  | none =>
    let present := NAME_COLS.filter (fun c => df.headers.contains c)
    if present ≠ [] then
      df.rows.map (fun r =>
        joinNameParts (((present.map (fun c => rowCell df r c)).map pyStrip).filter (· ≠ "")))
    else df.rows.map (fun _ => "")

/-- The shared validate-and-clean tail of both NPI cleaners: strip code and
description, keep rows whose code passes is_valid_npi, drop empty
descriptions, deduplicate by code, stamp the timestamp. -/
def npiCleanTail (codes descs : List String) (now : String) : List Row3 :=
  let pairs := (codes.map pyStrip).zip (descs.map pyStrip)
  let kept := (pairs.filter (fun p => is_valid_npi p.1)).filter (fun p => p.2 ≠ "")
  (drop_duplicates (fun p => p.1) kept).map (fun p => ⟨p.1, p.2, now⟩)

/-- clean_npi_data from src/scripts/npi_processor.py: NPI column by
candidate name or statistical scan (KeyError when the result is falsy),
description from organization or name parts, then the shared tail. -/
def clean_npi_data (df : DataFrame) (now : String) : Except String (List Row3) :=
  match detect_npi_col df with
  | .error e => .error e
  | .ok npiCol => .ok (npiCleanTail (colValues df npiCol) (npiDescColumn df) now)

/-- build_description from src/scripts/rxnorm_processor.py: the first
organization column if present, else the name parts with missing columns
contributing empty series. -/
def rxnorm_build_description (df : DataFrame) : List String :=
  match ORG_COLS.find? (fun c => df.headers.contains c) with
  | some oc => colValues df oc
  | none =>
    df.rows.map (fun r =>
      joinNameParts ((((NAME_COLS.map (fun c =>
        if df.headers.contains c then rowCell df r c else "")).map pyStrip)).filter (· ≠ "")))

/-- clean_npi_data from src/scripts/rxnorm_processor.py: NPI column by
candidate name only (KeyError when none is present), build_description,
then the shared validate-and-clean tail. -/
def rxnorm_clean_npi_data (df : DataFrame) (now : String) : Except String (List Row3) :=
  match NPI_CANDIDATES.find? (fun c => df.headers.contains c) with
  | none => .error "NPI column not found"
  | some npiCol => .ok (npiCleanTail (colValues df npiCol) (rxnorm_build_description df) now)

/-- Uppercase letter between A and V, the HCPCS code letter class. -/
def isAtoV (c : Char) : Bool := decide (65 ≤ c.toNat ∧ c.toNat ≤ 86)

/-- Full-string match of the HCPCS pattern: one letter A-V, four digits. -/
def hcpcsFullmatch (s : String) : Bool :=
  match s.data with
  | c :: rest => isAtoV c && rest.length = 4 && rest.all pyIsDigit
  | [] => false

/-- First segment of re.split on two-or-more whitespace or a tab: the
prefix up to the first tab or the first pair of adjacent whitespace
characters. -/
def firstSegment : List Char → List Char
  | [] => []
  | c1 :: rest =>
    if c1 == '\t' then []
    else
      match rest with
      | c2 :: _ =>
        if isPySpace c1 && isPySpace c2 then []
        else c1 :: firstSegment rest
      | [] => [c1]

/-- One line of the HCPCS reader: optional leading whitespace, a code of
one letter A-V and exactly four digits, at least one whitespace, then the
rest of the line; the description is the first big-gap-delimited token of
the stripped rest, and rows with an empty description are skipped. -/
def hcpcsLineRow (line : String) : Option (String × String) :=
  match line.data.dropWhile isPySpace with
  | c :: rest =>
    if isAtoV c then
      let digs := rest.take 4
      if digs.length = 4 && digs.all pyIsDigit then
        let after := rest.drop 4
        let w := (after.takeWhile isPySpace).length
        if w = 0 then none
        else
          let restStr := after.drop w
          let stripped := stripList restStr
          if stripped = [] then none
          else
            let desc := firstSegment stripped
            if desc = [] then none
            else some (⟨c :: digs⟩, ⟨desc⟩)
      else none
    else none
  | [] => none

/-- The HCPCS script body from src/scripts/hcpcs_processor.py, the input
file given as its lines and the run timestamp as a parameter: collect
code-description rows, re-validate the code pattern, strip descriptions,
drop empties, deduplicate by code, assign the literal date and then
overwrite it with the run timestamp. -/
def hcpcs_pipeline (lines : List String) (now : String) : List Row3 :=
  let rows := lines.filterMap hcpcsLineRow
  let rows1 := rows.filter (fun p => hcpcsFullmatch p.1)
  let rows2 := rows1.map (fun p => (p.1, pyStrip p.2))
  let rows3 := drop_duplicates (fun p => p.1) (rows2.filter (fun p => p.2 ≠ ""))
  let withLit := rows3.map (fun p => Row3.mk p.1 p.2 "2025-09-05")
  withLit.map (fun r => { r with last_updated := now })

/-- The LOINC script body from src/scripts/loinc_processor.py: select the
LOINC_NUM and LONG_COMMON_NAME columns (KeyError when either is missing),
attach the literal last_updated date, rename to code and description.
No validation, no filtering and no deduplication is applied. -/
def loinc_pipeline (df : DataFrame) : Except String (List Row3) :=
  if df.headers.contains "LOINC_NUM" && df.headers.contains "LONG_COMMON_NAME" then
    .ok (df.rows.map (fun r =>
      Row3.mk (rowCell df r "LOINC_NUM") (rowCell df r "LONG_COMMON_NAME") "2025-09-03"))
  else .error "KeyError"

/-- An XML element: tag, attributes in document order, direct text, child
elements. -/
inductive XmlElem where
  | mk (tag : String) (attrib : List (String × String)) (text : String)
       (children : List XmlElem)

def XmlElem.tag : XmlElem → String
  | .mk t _ _ _ => t

def XmlElem.attrib : XmlElem → List (String × String)
  | .mk _ a _ _ => a

def XmlElem.text : XmlElem → String
  | .mk _ _ x _ => x

def XmlElem.children : XmlElem → List XmlElem
  | .mk _ _ _ cs => cs

/-- strip_ns from src/scripts/icd10who_processor.py: the part of a tag
after the first closing brace, or the whole tag when there is none. -/
def strip_ns (tag : String) : String :=
  match tag.data.dropWhile (fun c => !(c == '\x7d')) with
  | [] => tag
  | _ :: rest => ⟨rest⟩

def ATTR_CODE_KEYS : List String := ["code", "id", "codeid", "icdcode"]

def CODE_CHILD_TAGS : List String := ["title", "name", "desc", "label"]

def DESC_TAGS : List String :=
  ["title", "name", "desc", "label", "definition", "rubric", "text", "caption"]

/-- The code of one element in the ICD-10-WHO walk: the first attribute
whose stripped value fully matches the ICD grammar and whose
namespace-stripped lower-cased name is a code key; failing that, the first
code-tagged child whose stripped text begins with an ICD-grammar token
(with a word boundary).  The match is upper-cased. -/
def elemCode (el : XmlElem) : Option String :=
  match el.attrib.find? (fun kv =>
      icdFullmatch (pyStrip kv.2) &&
      ATTR_CODE_KEYS.contains (pyLower (strip_ns kv.1))) with
  | some kv => some (pyUpper (pyStrip kv.2))
  | none =>
    el.children.findSome? (fun child =>
      if CODE_CHILD_TAGS.contains (pyLower (strip_ns child.tag)) then
        match icdLead (pyStrip child.text).data bBoundary with
        | some (tok, _) => some (pyUpper ⟨tok⟩)
        | none => none
      else none)

/-- The description of one element in the ICD-10-WHO walk: the first
description-tagged child with non-empty text whose text, after stripping a
leading code token, is still non-empty; otherwise the element's own direct
text with the same stripping. -/
def elemDesc (el : XmlElem) : String :=
  match el.children.findSome? (fun child =>
      if DESC_TAGS.contains (pyLower (strip_ns child.tag)) then
        let t := pyStrip child.text
        if t ≠ "" then
          let d := remove_leading_code t
          if d ≠ "" then some d else none
        else none
      else none) with
  | some d => d
  | none => remove_leading_code (pyStrip el.text)

/-- The contribution of one element to the rows list of the ICD-10-WHO
walk: skipped without a code, and skipped when the description is empty. -/
def elemRow (el : XmlElem) : Option (String × String) :=
  match elemCode el with
  | none => none
  | some code =>
    let desc := elemDesc el
    if desc ≠ "" then some (code, desc) else none

mutual
/-- The rows collected by iterating the whole tree in document order, the
order of root.iter(): each element contributes its own row (if any)
followed by the rows of its children, recursively. -/
def collectRows : XmlElem → List (String × String)
  | .mk t a x cs => (elemRow (.mk t a x cs)).toList ++ collectRowsList cs

/-- The rows of a forest of sibling elements, in order. -/
def collectRowsList : List XmlElem → List (String × String)
  | [] => []
  | e :: rest => collectRows e ++ collectRowsList rest
end

/-- The ICD-10-WHO script body after extraction, the run timestamp given
as a parameter: deduplicate by code, keep codes fully matching the ICD
grammar and descriptions that strip to non-empty, stamp the run timestamp
and then overwrite it with the literal date. -/
def icd10who_pipeline (root : XmlElem) (now : String) : List Row3 :=
  let ded := drop_duplicates (fun p => p.1) (collectRows root)
  let v1 := ded.filter (fun p => icdFullmatch p.1)
  let v2 := v1.filter (fun p => pyStrip p.2 ≠ "")
  let withTs := v2.map (fun p => Row3.mk p.1 p.2 now)
  withTs.map (fun r => { r with last_updated := "2025-09-03" })

/-- A UTC wall-clock time as datetime.now(timezone.utc) observes it. -/
structure UtcTime where
  year : Nat
  month : Nat
  day : Nat
  hour : Nat
  minute : Nat
  second : Nat
deriving DecidableEq

/-- Zero-padded two-digit decimal rendering of a field below 100. -/
def pad2 (n : Nat) : List Char := [Nat.digitChar (n / 10 % 10), Nat.digitChar (n % 10)]

/-- Zero-padded four-digit decimal rendering of a year below 10000. -/
def pad4 (n : Nat) : List Char :=
  [Nat.digitChar (n / 1000 % 10), Nat.digitChar (n / 100 % 10),
   Nat.digitChar (n / 10 % 10), Nat.digitChar (n % 10)]

/-- now_utc_iso from src/utils/common_functions.py: strftime of the
current UTC time with the ISO format string ending in a literal Z. -/
def now_utc_iso (t : UtcTime) : String :=
  ⟨pad4 t.year ++ '-' :: pad2 t.month ++ '-' :: pad2 t.day ++
   'T' :: pad2 t.hour ++ ':' :: pad2 t.minute ++ ':' :: pad2 t.second ++ ['Z']⟩

/-- Recognizer for the documented last_updated shape: an ISO-8601 UTC
timestamp with second precision and a trailing Z. -/
def isIso8601Z (s : String) : Bool :=
  match s.data with
  | [y1, y2, y3, y4, d1, m1, m2, d2, a1, a2, t1, h1, h2, c1, i1, i2, c2, s1, s2, z1] =>
    [y1, y2, y3, y4, m1, m2, a1, a2, h1, h2, i1, i2, s1, s2].all pyIsDigit &&
    d1 == '-' && d2 == '-' && t1 == 'T' && c1 == ':' && c2 == ':' && z1 == 'Z'
  | _ => false

def STD_COLS : List String := ["code", "description", "last_updated"]

/-- Column projection as pandas indexing with a list of labels: raises
(none) when a requested column is missing. -/
def selectCols (df : DataFrame) (cols : List String) : Option DataFrame :=
  if cols.all (fun c => df.headers.contains c) then
    some ⟨cols, df.rows.map (fun r => cols.map (fun c => rowCell df r c))⟩
  else none

/-- Index of the last dot in a name. -/
def lastDotIdx (name : List Char) : Option Nat :=
  ((List.range name.length).filter (fun i => name.getD i ' ' == '.')).getLast?

/-- Remove the extension of a path component the way pathlib defines a
suffix: the part from the last dot, when that dot is neither the leading
character nor the final one. -/
def dropExt (name : List Char) : List Char :=
  match lastDotIdx name with
  | some i => if 0 < i ∧ i < name.length - 1 then name.take i else name
  | none => name

/-- Path(base).with_suffix(".csv") on the plain relative paths the scripts
pass: replace the extension of the last component by .csv. -/
def with_suffix_csv (base : String) : String :=
  let comps := base.data.splitOn '/'
  match comps.getLast? with
  | none => base ++ ".csv"
  | some name =>
    ⟨(comps.dropLast.flatMap (fun c => c ++ ['/'])) ++ dropExt name ++ ".csv".data⟩

/-- save_to_formats from src/utils/common_functions.py, the written file
modelled as the pair of its path and the projected dataset: keep whichever
of code, description, last_updated are present, in that fixed order, and
write to the base path with its suffix replaced by .csv. -/
def save_to_formats (df : DataFrame) (base : String) : Option (String × DataFrame) :=
  let cols := STD_COLS.filter (fun c => df.headers.contains c)
  (selectCols df cols).map (fun d => (with_suffix_csv base, d))

/-! ### Helper lemmas -/

lemma stripList_eq (l : List Char) :
    stripList l = (l.dropWhile isPySpace).rdropWhile isPySpace := by
  simp [stripList, List.rdropWhile]

lemma stripList_idem (l : List Char) : stripList (stripList l) = stripList l := by
  rw [stripList_eq, stripList_eq]
  set X := l.dropWhile isPySpace with hX
  have h1 : (X.rdropWhile isPySpace).dropWhile isPySpace = X.rdropWhile isPySpace := by
    rw [List.dropWhile_eq_self_iff]
    intro hl
    have hpre : X.rdropWhile isPySpace <+: X := List.rdropWhile_prefix _ _
    have hlen : 0 < X.length := lt_of_lt_of_le hl hpre.length_le
    have hget : (X.rdropWhile isPySpace).get ⟨0, hl⟩ = X.get ⟨0, hlen⟩ := by
      have := List.IsPrefix.getElem hpre hl
      simpa [List.get_eq_getElem] using this
    rw [hget]
    exact List.dropWhile_get_zero_not isPySpace l hlen
  rw [h1, List.rdropWhile_idempotent]

lemma pyStrip_idem (s : String) : pyStrip (pyStrip s) = pyStrip s := by
  simp [pyStrip, stripList_idem]

lemma dedupBy_subset {α : Type} (key : α → String) (l : List α) :
    ∀ seen x, x ∈ dedupBy key l seen → x ∈ l := by
  induction l with
  | nil => intro seen x h; simp [dedupBy] at h
  | cons a t ih =>
    intro seen x h
    rw [dedupBy] at h
    split at h
    · exact List.mem_cons_of_mem a (ih _ x h)
    · rcases List.mem_cons.mp h with h1 | h1
      · exact h1 ▸ List.mem_cons_self a t
      · exact List.mem_cons_of_mem a (ih _ x h1)

lemma dedupBy_nodup {α : Type} (key : α → String) (l : List α) :
    ∀ seen, ((dedupBy key l seen).map key).Nodup ∧
      ∀ k ∈ (dedupBy key l seen).map key, seen.contains k = false := by
  induction l with
  | nil => intro seen; simp [dedupBy]
  | cons a t ih =>
    intro seen
    rw [dedupBy]
    split
    · exact ih seen
    · rename_i hseen
      obtain ⟨ihn, ihs⟩ := ih (key a :: seen)
      refine ⟨?_, ?_⟩
      · rw [List.map_cons, List.nodup_cons]
        refine ⟨?_, ihn⟩
        intro hmem
        have := ihs (key a) hmem
        simp at this
      · intro k hk
        rw [List.map_cons] at hk
        rcases List.mem_cons.mp hk with h1 | h1
        · subst h1
          simpa using hseen
        · have h2 := ihs k h1
          simp only [List.contains_cons, Bool.or_eq_false_iff] at h2
          exact h2.2

lemma drop_duplicates_nodup {α : Type} (key : α → String) (l : List α) :
    ((drop_duplicates key l).map key).Nodup :=
  (dedupBy_nodup key l []).1

lemma drop_duplicates_subset {α : Type} (key : α → String) (l : List α) :
    ∀ x, x ∈ drop_duplicates key l → x ∈ l :=
  fun x h => dedupBy_subset key l [] x h

lemma parity_succ (p : Nat) (b : Bool) :
    ((decide ((p + 1) % 2 = 0)) == b) = ((decide (p % 2 = 0)) == !b) := by
  rcases Nat.mod_two_eq_zero_or_one p with h | h
  · have h2 : (p + 1) % 2 = 1 := by omega
    cases b <;> simp [h, h2]
  · have h2 : (p + 1) % 2 = 0 := by omega
    cases b <;> simp [h, h2]

lemma luhnSum_eq_sum (l : List Nat) :
    ∀ b, luhnSum l b = ∑ p ∈ Finset.range l.length,
      (if (decide (p % 2 = 0)) == b then dblDigit (l.getD p 0) else l.getD p 0) := by
  induction l with
  | nil => intro b; simp [luhnSum]
  | cons d t ih =>
    intro b
    rw [luhnSum, List.length_cons, Finset.sum_range_succ']
    have hshift : ∀ p ∈ Finset.range t.length,
        (if (decide ((p + 1) % 2 = 0)) == b then dblDigit ((d :: t).getD (p + 1) 0)
         else (d :: t).getD (p + 1) 0)
        = (if (decide (p % 2 = 0)) == !b then dblDigit (t.getD p 0) else t.getD p 0) := by
      intro p _
      rw [parity_succ]
      simp [List.getD_cons_succ]
    rw [Finset.sum_congr rfl hshift, ← ih (!b)]
    have h0 : (if (decide ((0 : Nat) % 2 = 0)) == b then dblDigit ((d :: t).getD 0 0)
        else (d :: t).getD 0 0) = if b then dblDigit d else d := by
      cases b <;> simp
    rw [h0]
    omega

/-- C2. For every input string, is_valid_npi accepts exactly under the
specification's description: after stripping non-digits exactly ten digits
remain, and the Luhn check digit of the 14-digit base 80840 followed by
the first nine digits (doubling every second digit from the rightmost,
subtracting 9 from doubled values over 9, summing, then taking
(10 - sum mod 10) mod 10) equals the tenth digit. -/
theorem npi_validator_matches_spec (npi : String) :
    is_valid_npi npi = npiSpecValid npi := by
  rw [is_valid_npi, npiSpecValid]
  by_cases h : (npiDigits npi).length = 10
  · simp only [h, if_true]
    rw [luhnCheckOK]
    have hdl : (npiDigits npi).dropLast = (npiDigits npi).take 9 := by
      rw [List.dropLast_eq_take, h]
    rw [hdl]
    set base : List Nat := [8, 0, 8, 4, 0] ++ (npiDigits npi).take 9 with hbase
    have hsum : luhnSum base.reverse true = luhnSpecSum base := by
      rw [luhnSum_eq_sum base.reverse true, luhnSpecSum]
      rw [List.length_reverse]
      refine Finset.sum_congr rfl (fun p _ => ?_)
      by_cases hd : p % 2 = 0 <;> simp [hd]
    rw [hsum]
  · simp [h]

/-- Witness for C2 at a concrete accepted NPI and a concrete rejected one. -/
theorem npi_validator_matches_spec_witness :
    is_valid_npi "1234567893" = npiSpecValid "1234567893" ∧
      is_valid_npi "1234567893" = true ∧
      is_valid_npi "1234567890" = npiSpecValid "1234567890" ∧
      is_valid_npi "1234567890" = false :=
  ⟨npi_validator_matches_spec "1234567893", by decide,
   npi_validator_matches_spec "1234567890", by decide⟩

lemma dblDigit_lt (d : Nat) (h : d < 10) : dblDigit d < 10 := by
  unfold dblDigit; split <;> omega

lemma dblDigit_inj (a b : Nat) (ha : a < 10) (hb : b < 10)
    (h : dblDigit a = dblDigit b) : a = b := by
  unfold dblDigit at h; split at h <;> split at h <;> omega

lemma digit_val_lt (c : Char) (h : pyIsDigit c = true) : c.toNat - 48 < 10 := by
  simp only [pyIsDigit, decide_eq_true_eq] at h
  omega

lemma digit_char_inj (c d : Char) (hc : pyIsDigit c = true) (hd : pyIsDigit d = true)
    (h : c.toNat - 48 = d.toNat - 48) : c = d := by
  simp only [pyIsDigit, decide_eq_true_eq] at hc hd
  refine Char.ext (UInt32.ext ?_)
  show c.toNat = d.toNat
  omega

lemma luhnSum_append (a b : List Nat) : ∀ d,
    luhnSum (a ++ b) d =
      luhnSum a d + luhnSum b (if a.length % 2 = 0 then d else !d) := by
  induction a with
  | nil => intro d; simp [luhnSum]
  | cons x t ih =>
    intro d
    have harg : (if t.length % 2 = 0 then !d else !!d)
        = (if (x :: t).length % 2 = 0 then d else !d) := by
      rcases Nat.mod_two_eq_zero_or_one t.length with h | h
      · rw [if_pos h, List.length_cons, if_neg (by omega)]
      · rw [if_neg (by omega), List.length_cons, if_pos (by omega), Bool.not_not]
    rw [List.cons_append, luhnSum, luhnSum, ih (!d), harg, Nat.add_assoc]

lemma luhn_one_change (P Q : List Nat) (a b : Nat)
    (ha : a < 10) (hb : b < 10)
    (hlen : (P ++ a :: Q).length = 10)
    (hne : a ≠ b)
    (hvA : luhnCheckOK (P ++ a :: Q) = true) :
    luhnCheckOK (P ++ b :: Q) = false := by
  rcases List.eq_nil_or_concat Q with hQ | ⟨R, z, hQ⟩
  · -- the changed digit is the check digit itself
    subst hQ
    have hP9 : P.length = 9 := by simpa using hlen
    rw [luhnCheckOK] at hvA ⊢
    have hdla : (P ++ [a]).dropLast = P := List.dropLast_concat ..
    have hdlb : (P ++ [b]).dropLast = P := List.dropLast_concat ..
    have hga : (P ++ [a]).getD 9 0 = a := by
      rw [List.getD_eq_getElem?_getD, List.getElem?_append_right (by omega), hP9]
      simp
    have hgb : (P ++ [b]).getD 9 0 = b := by
      rw [List.getD_eq_getElem?_getD, List.getElem?_append_right (by omega), hP9]
      simp
    rw [hdla, hga, beq_iff_eq] at hvA
    rw [hdlb, hgb, beq_eq_false_iff_ne, hvA]
    exact hne
  · -- the changed digit is one of the nine summed digits
    rw [List.concat_eq_append] at hQ
    subst hQ
    have hlast : ∀ w, w < 10 →
        (P ++ w :: (R ++ [z])).getD 9 0 = z := by
      intro w _
      have h9 : (P ++ w :: R).length = 9 := by
        simp at hlen ⊢
        omega
      have hsplit : P ++ w :: (R ++ [z]) = (P ++ w :: R) ++ [z] := by simp
      rw [hsplit, List.getD_eq_getElem?_getD, List.getElem?_append_right (by omega), h9]
      simp
    have hdrop : ∀ w : Nat, (P ++ w :: (R ++ [z])).dropLast = P ++ w :: R := by
      intro w
      have hsplit : P ++ w :: (R ++ [z]) = (P ++ w :: R) ++ [z] := by simp
      rw [hsplit, List.dropLast_concat]
    have hrev : ∀ w : Nat,
        ([8, 0, 8, 4, 0] ++ (P ++ w :: R)).reverse
          = R.reverse ++ ([w] ++ (P.reverse ++ [0, 4, 8, 0, 8])) := by
      intro w
      simp
    rw [luhnCheckOK, hdrop, hlast a ha, hrev, luhnSum_append, beq_iff_eq] at hvA
    rw [luhnCheckOK, hdrop, hlast b hb, hrev, luhnSum_append, beq_eq_false_iff_ne]
    intro hvB
    by_cases hpar : R.reverse.length % 2 = 0
    · rw [if_pos hpar, List.singleton_append, luhnSum] at hvA hvB
      simp only [if_true, Bool.not_true] at hvA hvB
      have hba : dblDigit a < 10 := dblDigit_lt a ha
      have hbb : dblDigit b < 10 := dblDigit_lt b hb
      have heq : dblDigit a = dblDigit b := by
        generalize luhnSum R.reverse true = A at hvA hvB
        generalize luhnSum (P.reverse ++ [0, 4, 8, 0, 8]) false = B at hvA hvB
        generalize dblDigit a = u at hvA hba
        generalize dblDigit b = v at hvB hbb
        omega
      exact hne (dblDigit_inj a b ha hb heq)
    · rw [if_neg hpar, List.singleton_append, luhnSum] at hvA hvB
      simp only [Bool.not_true, Bool.not_false] at hvA hvB
      have heq : a = b := by
        generalize luhnSum R.reverse true = A at hvA hvB
        generalize luhnSum (P.reverse ++ [0, 4, 8, 0, 8]) true = B at hvA hvB
        simp only [if_neg Bool.false_ne_true] at hvA hvB
        omega
      exact hne heq

/-- C8. For every ten-digit string accepted by is_valid_npi, every string
obtained from it by changing exactly one digit (to a different digit) is
rejected: the standard Luhn single-digit-error detection property.  The
accepted string is written p ++ x :: q and the changed one p ++ y :: q. -/
theorem npi_single_digit_error_rejects
    (p q : List Char) (x y : Char)
    (hdigits : ∀ c ∈ p ++ x :: q, pyIsDigit c = true)
    (hy : pyIsDigit y = true)
    (hlen : (p ++ x :: q).length = 10)
    (hneq : x ≠ y)
    (hvalid : is_valid_npi ⟨p ++ x :: q⟩ = true) :
    is_valid_npi ⟨p ++ y :: q⟩ = false := by
  have hx : pyIsDigit x = true := hdigits x (by simp)
  have hdigAll : ∀ c ∈ p ++ y :: q, pyIsDigit c = true := by
    intro c hc
    rcases List.mem_append.mp hc with h | h
    · exact hdigits c (List.mem_append.mpr (Or.inl h))
    · rcases List.mem_cons.mp h with h | h
      · exact h ▸ hy
      · exact hdigits c (by simp [h])
  have hfx : npiDigits ⟨p ++ x :: q⟩ = (p ++ x :: q).map (fun c => c.toNat - 48) := by
    rw [npiDigits]
    show ((p ++ x :: q).filter pyIsDigit).map _ = _
    rw [List.filter_eq_self.mpr hdigits]
  have hfy : npiDigits ⟨p ++ y :: q⟩ = (p ++ y :: q).map (fun c => c.toNat - 48) := by
    rw [npiDigits]
    show ((p ++ y :: q).filter pyIsDigit).map _ = _
    rw [List.filter_eq_self.mpr hdigAll]
  have hlx : (npiDigits ⟨p ++ x :: q⟩).length = 10 := by
    rw [hfx, List.length_map]; exact hlen
  have hly : (npiDigits ⟨p ++ y :: q⟩).length = 10 := by
    rw [hfy, List.length_map]
    simp at hlen ⊢
    omega
  have hv2 : luhnCheckOK (npiDigits ⟨p ++ x :: q⟩) = true := by
    simp only [is_valid_npi] at hvalid
    rwa [if_pos hlx] at hvalid
  simp only [is_valid_npi]
  rw [if_pos hly, hfy, List.map_append, List.map_cons]
  rw [hfx, List.map_append, List.map_cons] at hv2
  refine luhn_one_change _ _ _ _ (digit_val_lt x hx) (digit_val_lt y hy) ?_ ?_ hv2
  · simp at hlen ⊢
    omega
  · exact fun h => hneq (digit_char_inj x y hx hy h)

/-- Witness for C8: 1234567893 passes, and changing its first digit to 2
makes it fail. -/
theorem npi_single_digit_error_rejects_witness :
    is_valid_npi ⟨[] ++ '1' :: "234567893".data⟩ = true ∧
      is_valid_npi ⟨[] ++ '2' :: "234567893".data⟩ = false :=
  ⟨by decide,
   npi_single_digit_error_rejects [] "234567893".data '1' '2'
     (by decide) (by decide) (by decide) (by decide) (by decide)⟩

/-! ### Column-detector characterization -/

/-- Test that the score of column c is at least the score of every column. -/
def isBestAt (score : String → Nat) (headers : List String) (c : String) : Bool :=
  headers.all (fun c2 => decide (score c2 ≤ score c))

/-- Test that column c has positive score and is a maximum. -/
def isPosBestAt (score : String → Nat) (headers : List String) (c : String) : Bool :=
  decide (0 < score c) && isBestAt score headers c

/-- The detector contract as the specification claims it for every
detector: return the first preferred candidate present in the headers;
otherwise scan and return the first column of maximal score, ties broken
by column order, and fail (none, a MissingColumnError kind) when no
column's score exceeds zero. -/
def specClaimedDetect (cands headers : List String) (score : String → Nat) : Option String :=
  match cands.find? (fun c => headers.contains c) with
  | some c => some c
  | none => headers.find? (isPosBestAt score headers)

/-- The earliest column whose score is maximal, with no positivity
requirement: what the description-column fallback actually computes. -/
def specFirstArgmax (headers : List String) (score : String → Nat) : Option String :=
  headers.find? (isBestAt score headers)

lemma find?_cons_neg {α : Type} {p : α → Bool} {a : α} {l : List α} (h : p a = false) :
    List.find? p (a :: l) = List.find? p l := by
  rw [List.find?_cons, h]

lemma find?_cons_pos {α : Type} {p : α → Bool} {a : α} {l : List α} (h : p a = true) :
    List.find? p (a :: l) = some a := by
  rw [List.find?_cons, h]

lemma find?_congr {α : Type} (p q : α → Bool) :
    ∀ l : List α, (∀ e ∈ l, p e = q e) → l.find? p = l.find? q := by
  intro l
  induction l with
  | nil => intro _; rfl
  | cons a t ih =>
    intro h
    cases hq : q a with
    | false =>
      rw [find?_cons_neg (by rw [h a (by simp)]; exact hq), find?_cons_neg hq]
      exact ih (fun e he => h e (by simp [he]))
    | true =>
      rw [find?_cons_pos (by rw [h a (by simp)]; exact hq), find?_cons_pos hq]

lemma isBestAt_false (score : String → Nat) (L : List String) (w e : String)
    (he : e ∈ L) (hgt : ¬ score e ≤ score w) :
    isBestAt score L w = false := by
  apply Bool.eq_false_iff.mpr
  intro hall
  rw [isBestAt, List.all_eq_true] at hall
  exact hgt (by simpa using hall e he)

lemma fold2_first_argmax (score : String → Nat) :
    ∀ (xs : List String) (x : String),
      ((x :: xs).find? (isBestAt score (x :: xs)))
        = some (xs.foldl (fun best c => if score c > score best then c else best) x) := by
  intro xs
  induction xs with
  | nil =>
    intro x
    have hx : isBestAt score [x] x = true := by simp [isBestAt]
    rw [List.foldl_nil, find?_cons_pos hx]
  | cons c t ih =>
    intro x
    simp only [List.foldl_cons]
    by_cases h : score c > score x
    · rw [if_pos h, ← ih c]
      have hx : isBestAt score (x :: c :: t) x = false :=
        isBestAt_false score _ x c (by simp) (by omega)
      rw [find?_cons_neg hx]
      refine find?_congr _ _ _ (fun e _ => ?_)
      rw [isBestAt, isBestAt]
      simp only [List.all_cons]
      by_cases h1 : score c ≤ score e
      · have h2 : score x ≤ score e := by omega
        simp [h1, h2]
      · simp [h1]
    · rw [if_neg h, ← ih x]
      push_neg at h
      by_cases hx : isBestAt score (x :: t) x = true
      · have hx2 : isBestAt score (x :: c :: t) x = true := by
          rw [isBestAt] at hx ⊢
          simp only [List.all_cons, Bool.and_eq_true, decide_eq_true_eq] at hx ⊢
          exact ⟨hx.1, h, hx.2⟩
        rw [find?_cons_pos hx2, find?_cons_pos hx]
      · have hex : ∃ e ∈ x :: t, ¬ score e ≤ score x := by
          by_contra hcon
          push_neg at hcon
          refine hx ?_
          rw [isBestAt]
          simp only [List.all_eq_true, decide_eq_true_eq]
          exact hcon
        obtain ⟨e, he, hgt⟩ := hex
        have he2 : e ∈ x :: c :: t := by
          rcases List.mem_cons.mp he with h1 | h1
          · simp [h1]
          · simp [h1]
        have hxf : isBestAt score (x :: c :: t) x = false :=
          isBestAt_false score _ x e he2 hgt
        have hcf : isBestAt score (x :: c :: t) c = false :=
          isBestAt_false score _ c e he2 (by omega)
        have hxf1 : isBestAt score (x :: t) x = false :=
          isBestAt_false score _ x e he hgt
        rw [find?_cons_neg hxf, find?_cons_neg hcf, find?_cons_neg hxf1]
        refine find?_congr _ _ _ (fun e2 _ => ?_)
        rw [isBestAt, isBestAt]
        simp only [List.all_cons]
        by_cases h1 : score x ≤ score e2
        · have h2 : score c ≤ score e2 := by omega
          simp [h1, h2]
        · simp [h1]

lemma scan_fold_some (score : String → Nat) :
    ∀ (t : List String) (b : String),
      t.foldl (fun acc c => if score c > acc.2 then (some c, score c) else acc)
          ((some b : Option String), score b)
        = (some (t.foldl (fun best c => if score c > score best then c else best) b),
           score (t.foldl (fun best c => if score c > score best then c else best) b)) := by
  intro t
  induction t with
  | nil => intro b; rfl
  | cons c t ih =>
    intro b
    simp only [List.foldl_cons]
    by_cases h : score c > score b
    · rw [if_pos h, if_pos h]
      exact ih c
    · rw [if_neg h, if_neg h]
      exact ih b

lemma scanBest_eq (score : String → Nat) :
    ∀ headers : List String,
      scanBest headers score = headers.find? (isPosBestAt score headers) := by
  intro headers
  induction headers with
  | nil => rfl
  | cons c t ih =>
    rw [scanBest, List.foldl_cons]
    by_cases h : 0 < score c
    · have hstep : ((if score c > ((none : Option String), 0).2 then (some c, score c)
          else ((none : Option String), 0))) = ((some c : Option String), score c) :=
        if_pos (by simpa using h)
      rw [hstep, scan_fold_some score t c]
      show some (t.foldl (fun best c => if score c > score best then c else best) c) = _
      rw [← fold2_first_argmax score t c]
      refine find?_congr _ _ _ (fun e _ => ?_)
      rw [isBestAt, isPosBestAt, isBestAt]
      simp only [List.all_cons]
      by_cases h1 : score c ≤ score e
      · have h2 : 0 < score e := by omega
        simp [h1, h2]
      · simp [h1]
    · have hstep : ((if score c > ((none : Option String), 0).2 then (some c, score c)
          else ((none : Option String), 0))) = ((none : Option String), 0) :=
        if_neg (by simpa using h)
      rw [hstep]
      have hc0 : score c = 0 := by omega
      have hcp : isPosBestAt score (c :: t) c = false := by
        rw [isPosBestAt]
        simp [hc0]
      rw [find?_cons_neg hcp]
      show scanBest t score = _
      rw [ih]
      refine find?_congr _ _ _ (fun e _ => ?_)
      rw [isPosBestAt, isPosBestAt, isBestAt, isBestAt]
      simp only [List.all_cons]
      by_cases h1 : 0 < score e
      · have h2 : score c ≤ score e := by omega
        simp [h1, h2]
      · simp [h1]

lemma pyMaxBy_eq (l : List String) (score : String → Nat) :
    pyMaxBy l score = specFirstArgmax l score := by
  cases l with
  | nil => rfl
  | cons x xs =>
    rw [pyMaxBy, specFirstArgmax, fold2_first_argmax]

/-- C4 (amended). Every detector returns the first preferred candidate
name present in the headers without consulting the scan; otherwise the
code-column detectors return the first column of maximal score: the NPI
detector fails when no column's score exceeds zero and also when the
winning column is named by the empty string (Python truthiness), the
ICD-10-CM code detector yields nothing exactly when no column's score
exceeds zero, and the description-column fallback returns the earliest
maximal-score column among the non-code columns even when every score is
zero, yielding nothing only when no such column exists. -/
theorem detector_contract (df : DataFrame) :
    (detect_npi_col df =
       (match specClaimedDetect NPI_CANDIDATES df.headers
           (fun c => tenDigitCount (colValues df c)) with
        | some c => if c == "" then .error "NPI column not found" else .ok c
        | none => .error "NPI column not found")) ∧
    (detectIcdCodeCol df =
       specClaimedDetect ICD_CODE_CANDS df.headers
         (fun c => icdMatchCount (colValues df c))) ∧
    (∀ codeCol : Option String,
       detectIcdDescCol df codeCol =
         (match ICD_DESC_CANDS.find? (fun c => df.headers.contains c) with
          | some c => some c
          | none =>
            specFirstArgmax
              (df.headers.filter (fun c =>
                match codeCol with
                | none => true
                | some cc => !(c == cc)))
              (fun c => lenSum (colValues df c)))) := by
  refine ⟨?_, ?_, ?_⟩
  · simp only [detect_npi_col, specClaimedDetect]
    cases hf : NPI_CANDIDATES.find? (fun c => df.headers.contains c) with
    | some c => rfl
    | none =>
      rw [scanBest_eq]
      cases hopt : df.headers.find?
          (isPosBestAt (fun c => tenDigitCount (colValues df c)) df.headers) with
      | some c => rfl
      | none => rfl
  · simp only [detectIcdCodeCol, specClaimedDetect]
    cases hf : ICD_CODE_CANDS.find? (fun c => df.headers.contains c) with
    | some c => rfl
    | none => rw [scanBest_eq]
  · intro codeCol
    simp only [detectIcdDescCol]
    cases hf : ICD_DESC_CANDS.find? (fun c => df.headers.contains c) with
    | some c => rfl
    | none => rw [pyMaxBy_eq]

/-- C4 counterexample.  First divergence: on a dataset with the code
column c1 and a second column c2 all of whose values are empty, every
description score is zero, yet the detector returns c2 instead of
signalling a MissingColumnError-kind failure as the claim states.  Second
divergence: on a dataset whose only column is named by the empty string
and holds ten-digit values, that column has the maximal positive score and
the claim says it is returned, yet the NPI detector raises. -/
theorem detector_contract_counterexample :
    (detectIcdDescCol ⟨["c1", "c2"], [["A00", ""]]⟩ (some "c1") = some "c2" ∧
     specClaimedDetect ICD_DESC_CANDS
       (["c1", "c2"].filter (fun c => !(c == "c1")))
       (fun c => lenSum (colValues ⟨["c1", "c2"], [["A00", ""]]⟩ c)) = none) ∧
    (detect_npi_col ⟨[""], [["1234567890"]]⟩ = .error "NPI column not found" ∧
     specClaimedDetect NPI_CANDIDATES [""]
       (fun c => tenDigitCount (colValues ⟨[""], [["1234567890"]]⟩ c)) = some "") := by
  exact ⟨⟨rfl, rfl⟩, rfl, rfl⟩

/-! ### Output invariants (C1) -/

/-- The data-model invariant of the specification: no duplicate code values
and no empty or whitespace-only description in a final output record set. -/
def outputInvariant (out : List Row3) : Prop :=
  ((out.map Row3.code).Nodup) ∧ ∀ r ∈ out, pyStrip r.description ≠ ""

instance (out : List Row3) : Decidable (outputInvariant out) := by
  unfold outputInvariant
  infer_instance

lemma invariant_of_map_dedup {α : Type} (key : α → String) (l : List α) (mk : α → Row3)
    (hcode : ∀ a, (mk a).code = key a)
    (hdesc : ∀ a ∈ l, pyStrip (mk a).description ≠ "") :
    outputInvariant ((drop_duplicates key l).map mk) := by
  constructor
  · have hmm : ((drop_duplicates key l).map mk).map Row3.code
        = (drop_duplicates key l).map key := by
      rw [List.map_map]
      exact List.map_congr_left (fun a _ => hcode a)
    rw [hmm]
    exact drop_duplicates_nodup key l
  · intro r hr
    rw [List.mem_map] at hr
    obtain ⟨a, ha, rfl⟩ := hr
    exact hdesc a (drop_duplicates_subset key l a ha)

lemma hcpcs_invariant (lines : List String) (now : String) :
    outputInvariant (hcpcs_pipeline lines now) := by
  rw [hcpcs_pipeline]
  rw [List.map_map]
  apply invariant_of_map_dedup
  · intro a
    rfl
  · intro a ha
    obtain ⟨ham, hne⟩ := List.mem_filter.mp ha
    obtain ⟨b, _, rfl⟩ := List.mem_map.mp ham
    show pyStrip (pyStrip b.2) ≠ ""
    rw [pyStrip_idem]
    simpa using hne

lemma icd10cm_invariant (df : DataFrame) (now : String) (out : List Row3)
    (h : clean_icd10cm_data df now = .ok out) : outputInvariant out := by
  rw [clean_icd10cm_data] at h
  split at h
  · exact absurd h (by simp)
  · obtain rfl : out = _ := (Except.ok.inj h).symm
    apply invariant_of_map_dedup
    · intro a
      rfl
    · intro a ha
      obtain ⟨ham, hpred⟩ := List.mem_filter.mp ha
      obtain ⟨b, _, rfl⟩ := List.mem_map.mp ham
      show pyStrip (pyStrip (rowCell df b _)) ≠ ""
      rw [pyStrip_idem]
      simp only [Bool.and_eq_true, decide_eq_true_eq] at hpred
      exact hpred.2

lemma icd10who_invariant (root : XmlElem) (now : String) :
    outputInvariant (icd10who_pipeline root now) := by
  rw [icd10who_pipeline, List.map_map]
  constructor
  · rw [List.map_map]
    have hmm : (Row3.code ∘ ((fun r => { r with last_updated := "2025-09-03" })
        ∘ (fun p : String × String => Row3.mk p.1 p.2 now)))
        = fun p : String × String => p.1 := funext (fun a => rfl)
    rw [hmm]
    exact List.Nodup.sublist
      (List.Sublist.map _ ((List.filter_sublist _).trans (List.filter_sublist _)))
      (drop_duplicates_nodup (fun p => p.1) (collectRows root))
  · intro r hr
    rw [List.mem_map] at hr
    obtain ⟨p, hp, rfl⟩ := hr
    have := (List.mem_filter.mp hp).2
    simpa using this

lemma snomed_invariant (df : DataFrame) (now : String) (out : List Row3)
    (h : clean_snomed_data df now = .ok out) : outputInvariant out := by
  rw [clean_snomed_data] at h
  split at h
  · obtain rfl : out = _ := (Except.ok.inj h).symm
    apply invariant_of_map_dedup
    · intro a
      rfl
    · intro a ha
      obtain ⟨ham, hpred⟩ := List.mem_filter.mp ha
      obtain ⟨b, _, rfl⟩ := List.mem_map.mp ham
      show pyStrip (pyStrip (rowCell df b _)) ≠ ""
      rw [pyStrip_idem]
      simp only [Bool.and_eq_true, decide_eq_true_eq] at hpred
      exact hpred.2
  · exact absurd h (by simp)

lemma npiCleanTail_invariant (codes descs : List String) (now : String) :
    outputInvariant (npiCleanTail codes descs now) := by
  rw [npiCleanTail]
  apply invariant_of_map_dedup
  · intro a
    rfl
  · intro a ha
    obtain ⟨a1, a2⟩ := a
    obtain ⟨ham, hne⟩ := List.mem_filter.mp ha
    have ham2 := List.mem_of_mem_filter ham
    obtain ⟨-, h2⟩ := List.of_mem_zip ham2
    obtain ⟨y, -, hy⟩ := List.mem_map.mp h2
    show pyStrip a2 ≠ ""
    rw [← hy, pyStrip_idem, hy]
    simpa using hne

lemma npi_invariant (df : DataFrame) (now : String) (out : List Row3)
    (h : clean_npi_data df now = .ok out) : outputInvariant out := by
  rw [clean_npi_data] at h
  split at h
  · exact absurd h (by simp)
  · obtain rfl : out = _ := (Except.ok.inj h).symm
    exact npiCleanTail_invariant _ _ _

lemma rxnorm_invariant (df : DataFrame) (now : String) (out : List Row3)
    (h : rxnorm_clean_npi_data df now = .ok out) : outputInvariant out := by
  rw [rxnorm_clean_npi_data] at h
  split at h
  · exact absurd h (by simp)
  · obtain rfl : out = _ := (Except.ok.inj h).symm
    exact npiCleanTail_invariant _ _ _

/-- C1 (amended). The no-duplicate-code and no-empty-or-whitespace-only
description invariant holds for the final output of every cleaning
pipeline except LOINC: HCPCS, ICD-10-CM, ICD-10-WHO, SNOMED, and both NPI
cleaners (npi_processor and rxnorm_processor).  The LOINC script applies
no validation, no empty-description filter and no deduplication, so its
output can violate both parts (see the counterexample). -/
theorem output_invariant_amended :
    (∀ lines now, outputInvariant (hcpcs_pipeline lines now)) ∧
    (∀ df now out, clean_icd10cm_data df now = .ok out → outputInvariant out) ∧
    (∀ root now, outputInvariant (icd10who_pipeline root now)) ∧
    (∀ df now out, clean_snomed_data df now = .ok out → outputInvariant out) ∧
    (∀ df now out, clean_npi_data df now = .ok out → outputInvariant out) ∧
    (∀ df now out, rxnorm_clean_npi_data df now = .ok out → outputInvariant out) :=
  ⟨hcpcs_invariant, icd10cm_invariant, icd10who_invariant, snomed_invariant,
   npi_invariant, rxnorm_invariant⟩

/-- C1 counterexample.  A LOINC input with a duplicated code and empty
descriptions flows through loinc_pipeline unchanged, so the final LOINC
output violates both the no-duplicate-codes and the non-empty-description
invariant the claim asserts for every script. -/
theorem output_invariant_counterexample :
    loinc_pipeline ⟨["LOINC_NUM", "LONG_COMMON_NAME"], [["1", ""], ["1", ""]]⟩
        = .ok [⟨"1", "", "2025-09-03"⟩, ⟨"1", "", "2025-09-03"⟩] ∧
      ¬ outputInvariant [⟨"1", "", "2025-09-03"⟩, ⟨"1", "", "2025-09-03"⟩] := by
  constructor
  · rfl
  · decide

/-- Witness for C1 at concrete inputs: the SNOMED cleaner output on a
small dataset satisfies the invariant, discharging the hypothesis by
computation. -/
theorem output_invariant_amended_witness :
    outputInvariant [⟨"123456", "desc", "T"⟩] :=
  output_invariant_amended.2.2.2.1
    ⟨["conceptId", "term", "active"],
     [["123456", "desc", "1"], ["123456", "other", "1"], ["12345", "short", "1"]]⟩
    "T" [⟨"123456", "desc", "T"⟩] (by decide)

/-! ### Loader and cleaner control flow (C3, C5) -/

/-- C3. On the fixed-width fallback path (a delimited parse succeeded but
produced at most one column), the ICD-10-CM loader raises exactly when no
line of the file matches either fixed-width pattern; the cleaner, by
contrast, returns a successful (possibly empty) record set whenever its
column detection succeeds, however many rows are filtered out. -/
theorem icd10cm_error_asymmetry :
    (∀ lines df, attemptedDelim lines = some df → ¬ 1 < df.headers.length →
       (load_icd10cm_data lines
          = .error "Could not parse any rows from fixed-width ICD-10-CM order file."
        ↔ fixedWidthRows lines = [])) ∧
    (∀ df now, falsyCol (detectIcdCodeCol df) = false →
       falsyCol (detectIcdDescCol df (detectIcdCodeCol df)) = false →
       ∃ out, clean_icd10cm_data df now = .ok out) := by
  constructor
  · intro lines df h h2
    simp only [load_icd10cm_data, h]
    rw [if_neg h2]
    by_cases hr : fixedWidthRows lines = [] <;> simp [hr]
  · intro df now h1 h2
    rw [clean_icd10cm_data]
    rw [if_neg (by simp [h1, h2])]
    exact ⟨_, rfl⟩

/-- Witness for C3: a one-column file with no parseable line raises, and a
dataset whose rows are all filtered away cleans to a successful empty
output. -/
theorem icd10cm_error_asymmetry_witness :
    ((load_icd10cm_data ["onlyheader", "garbage"]
        = .error "Could not parse any rows from fixed-width ICD-10-CM order file.")
      ↔ fixedWidthRows ["onlyheader", "garbage"] = []) ∧
    (∃ out, clean_icd10cm_data ⟨["c1", "c2"], [["A00", ""]]⟩ "T" = .ok out) :=
  ⟨icd10cm_error_asymmetry.1 ["onlyheader", "garbage"] ⟨["onlyheader"], [["garbage"]]⟩
     (by decide) (by decide),
   icd10cm_error_asymmetry.2 ⟨["c1", "c2"], [["A00", ""]]⟩ "T" (by decide) (by decide)⟩

/-- C5. The loader attempts the tab parse first and the comma parse only
when the tab parse raises; when the delimited dataset so obtained has more
than one column it is returned with trimmed header names, and otherwise
the loader proceeds to the fixed-width fallback. -/
theorem load_delimited_exactly_when_multicolumn :
    (∀ lines df0, parseDelim '\t' lines = some df0 → attemptedDelim lines = some df0) ∧
    (∀ lines, parseDelim '\t' lines = none →
       attemptedDelim lines = parseDelim ',' lines) ∧
    (∀ lines df, attemptedDelim lines = some df →
       (1 < df.headers.length →
          load_icd10cm_data lines = .ok ⟨df.headers.map pyStrip, df.rows⟩) ∧
       (¬ 1 < df.headers.length →
          load_icd10cm_data lines =
            (if fixedWidthRows lines = [] then
               .error "Could not parse any rows from fixed-width ICD-10-CM order file."
             else .ok ⟨FIXED_HEADERS, fixedWidthRows lines⟩))) := by
  refine ⟨?_, ?_, ?_⟩
  · intro lines df0 h0
    simp only [attemptedDelim, h0]
  · intro lines h0
    simp only [attemptedDelim, h0]
  · intro lines df h
    constructor
    · intro hgt
      simp only [load_icd10cm_data, h]
      rw [if_pos hgt]
    · intro hle
      simp only [load_icd10cm_data, h]
      rw [if_neg hle]

/-- Witness for C5: a two-column tab file is returned as the delimited
dataset, and a one-column file goes down the fixed-width path. -/
theorem load_delimited_exactly_when_multicolumn_witness :
    load_icd10cm_data ["a\tb", "1\t2"] = .ok ⟨["a", "b"], [["1", "2"]]⟩ ∧
      load_icd10cm_data ["h", "00001 A00 0 Cholera   Chol2"]
        = .ok ⟨FIXED_HEADERS, fixedWidthRows ["h", "00001 A00 0 Cholera   Chol2"]⟩ := by
  constructor
  · exact (load_delimited_exactly_when_multicolumn.2.2 ["a\tb", "1\t2"]
      ⟨["a", "b"], [["1", "2"]]⟩ (by decide)).1 (by decide)
  · have h := (load_delimited_exactly_when_multicolumn.2.2
      ["h", "00001 A00 0 Cholera   Chol2"] ⟨["h"], [["00001 A00 0 Cholera   Chol2"]]⟩
      (by decide)).2 (by decide)
    rw [h]
    decide

/-! ### last_updated behavior (C6, C7) -/

lemma hcpcs_last (lines : List String) (now : String) :
    ∀ r ∈ hcpcs_pipeline lines now, r.last_updated = now := by
  intro r hr
  rw [hcpcs_pipeline] at hr
  rw [List.mem_map] at hr
  obtain ⟨p, _, rfl⟩ := hr
  rfl

lemma icd10who_last (root : XmlElem) (now : String) :
    ∀ r ∈ icd10who_pipeline root now, r.last_updated = "2025-09-03" := by
  intro r hr
  rw [icd10who_pipeline] at hr
  rw [List.mem_map] at hr
  obtain ⟨p, _, rfl⟩ := hr
  rfl

/-- C6 (amended).  In the ICD-10-WHO script the literal date is assigned
after the dynamic timestamp and is therefore what persists; in the HCPCS
script the two assignments are in the opposite order, so the dynamic
timestamp overwrites the literal and is what persists. -/
theorem hardcoded_date_amended :
    (∀ lines now r, r ∈ hcpcs_pipeline lines now → r.last_updated = now) ∧
    (∀ root now r, r ∈ icd10who_pipeline root now → r.last_updated = "2025-09-03") :=
  ⟨fun lines now r hr => hcpcs_last lines now r hr,
   fun root now r hr => icd10who_last root now r hr⟩

/-- C6 counterexample: the HCPCS pipeline persists the dynamic run
timestamp, not the fixed literal 2025-09-05, so the claim that both
scripts persist the fixed literal is false. -/
theorem hardcoded_date_counterexample :
    hcpcs_pipeline ["A1234  Some desc"] "2025-09-12T14:30:00Z"
        = [⟨"A1234", "Some desc", "2025-09-12T14:30:00Z"⟩] ∧
      "2025-09-12T14:30:00Z" ≠ "2025-09-05" := by
  exact ⟨rfl, by decide⟩

/-- Witness for C6 at concrete inputs for both scripts. -/
theorem hardcoded_date_amended_witness :
    (⟨"A1234", "Some desc", "TS"⟩ : Row3).last_updated = "TS" ∧
      (⟨"A00", "Cholera", "2025-09-03"⟩ : Row3).last_updated = "2025-09-03" :=
  ⟨hardcoded_date_amended.1 ["A1234  Some desc"] "TS" ⟨"A1234", "Some desc", "TS"⟩
     (by decide),
   hardcoded_date_amended.2
     (.mk "root" [] "" [.mk "class" [("code", "A00")] "" [.mk "title" [] "Cholera" []]])
     "TS" ⟨"A00", "Cholera", "2025-09-03"⟩ (by decide)⟩

lemma now_utc_iso_format (t : UtcTime) : isIso8601Z (now_utc_iso t) = true := by
  have hdig : ∀ n : Nat, pyIsDigit (Nat.digitChar (n % 10)) = true := by
    intro n
    exact (by decide : ∀ d, d < 10 → pyIsDigit (Nat.digitChar d) = true) (n % 10)
      (Nat.mod_lt _ (by norm_num))
  simp [now_utc_iso, pad4, pad2, isIso8601Z, hdig]

lemma icd10cm_last (df : DataFrame) (now : String) (out : List Row3)
    (h : clean_icd10cm_data df now = .ok out) : ∀ r ∈ out, r.last_updated = now := by
  rw [clean_icd10cm_data] at h
  split at h
  · exact absurd h (by simp)
  · obtain rfl : out = _ := (Except.ok.inj h).symm
    intro r hr
    obtain ⟨p, _, rfl⟩ := List.mem_map.mp hr
    rfl

lemma snomed_last (df : DataFrame) (now : String) (out : List Row3)
    (h : clean_snomed_data df now = .ok out) : ∀ r ∈ out, r.last_updated = now := by
  rw [clean_snomed_data] at h
  split at h
  · obtain rfl : out = _ := (Except.ok.inj h).symm
    intro r hr
    obtain ⟨p, _, rfl⟩ := List.mem_map.mp hr
    rfl
  · exact absurd h (by simp)

lemma npiCleanTail_last (codes descs : List String) (now : String) :
    ∀ r ∈ npiCleanTail codes descs now, r.last_updated = now := by
  intro r hr
  rw [npiCleanTail] at hr
  obtain ⟨p, _, rfl⟩ := List.mem_map.mp hr
  rfl

lemma npi_last (df : DataFrame) (now : String) (out : List Row3)
    (h : clean_npi_data df now = .ok out) : ∀ r ∈ out, r.last_updated = now := by
  rw [clean_npi_data] at h
  split at h
  · exact absurd h (by simp)
  · obtain rfl : out = _ := (Except.ok.inj h).symm
    exact npiCleanTail_last _ _ _

lemma rxnorm_last (df : DataFrame) (now : String) (out : List Row3)
    (h : rxnorm_clean_npi_data df now = .ok out) : ∀ r ∈ out, r.last_updated = now := by
  rw [rxnorm_clean_npi_data] at h
  split at h
  · exact absurd h (by simp)
  · obtain rfl : out = _ := (Except.ok.inj h).symm
    exact npiCleanTail_last _ _ _

lemma loinc_last (df : DataFrame) (out : List Row3)
    (h : loinc_pipeline df = .ok out) : ∀ r ∈ out, r.last_updated = "2025-09-03" := by
  rw [loinc_pipeline] at h
  split at h
  · obtain rfl : out = _ := (Except.ok.inj h).symm
    intro r hr
    obtain ⟨p, _, rfl⟩ := List.mem_map.mp hr
    rfl
  · exact absurd h (by simp)

/-- C7 (amended).  now_utc_iso always renders an ISO-8601 UTC timestamp
with second precision and a trailing Z, and that is the last_updated value
persisted by the ICD-10-CM, SNOMED and both NPI cleaners and by the HCPCS
script; but the ICD-10-WHO and LOINC scripts persist the fixed literal
date 2025-09-03, which is not of that format. -/
theorem timestamp_format_amended :
    (∀ t : UtcTime, isIso8601Z (now_utc_iso t) = true) ∧
    (∀ df now out, clean_icd10cm_data df now = .ok out →
       ∀ r ∈ out, r.last_updated = now) ∧
    (∀ df now out, clean_snomed_data df now = .ok out →
       ∀ r ∈ out, r.last_updated = now) ∧
    (∀ df now out, clean_npi_data df now = .ok out →
       ∀ r ∈ out, r.last_updated = now) ∧
    (∀ df now out, rxnorm_clean_npi_data df now = .ok out →
       ∀ r ∈ out, r.last_updated = now) ∧
    (∀ lines now r, r ∈ hcpcs_pipeline lines now → r.last_updated = now) ∧
    (∀ root now r, r ∈ icd10who_pipeline root now → r.last_updated = "2025-09-03") ∧
    (∀ df out, loinc_pipeline df = .ok out → ∀ r ∈ out, r.last_updated = "2025-09-03") ∧
    isIso8601Z "2025-09-03" = false :=
  ⟨now_utc_iso_format, icd10cm_last, snomed_last, npi_last, rxnorm_last,
   fun lines now r hr => hcpcs_last lines now r hr,
   fun root now r hr => icd10who_last root now r hr,
   loinc_last, by decide⟩

/-- C7 counterexample: the LOINC output persists the literal 2025-09-03 as
last_updated, and that string is not an ISO-8601 timestamp with a Z
suffix, contradicting the claim for every script. -/
theorem timestamp_format_counterexample :
    loinc_pipeline ⟨["LOINC_NUM", "LONG_COMMON_NAME"], [["1", "x"]]⟩
        = .ok [⟨"1", "x", "2025-09-03"⟩] ∧
      isIso8601Z "2025-09-03" = false := ⟨rfl, by decide⟩

/-- Witness for C7 at a concrete time and a concrete LOINC input. -/
theorem timestamp_format_amended_witness :
    isIso8601Z (now_utc_iso ⟨2025, 9, 12, 14, 30, 0⟩) = true ∧
      (⟨"1", "x", "2025-09-03"⟩ : Row3).last_updated = "2025-09-03" :=
  ⟨timestamp_format_amended.1 ⟨2025, 9, 12, 14, 30, 0⟩,
   timestamp_format_amended.2.2.2.2.2.2.2.1
     ⟨["LOINC_NUM", "LONG_COMMON_NAME"], [["1", "x"]]⟩
     [⟨"1", "x", "2025-09-03"⟩] (by decide) ⟨"1", "x", "2025-09-03"⟩ (by decide)⟩

/-! ### ICD-10-WHO extractor examples (C9) -/

/-- C9. The extractor maps an element with a code attribute A00 and a
title child Cholera to the pair (A00, Cholera), and an element with no
code attribute whose title text is the string A00 Cholera to the same
pair, the leading code token and the following separator being stripped
from the description. -/
theorem icd10who_extractor_examples :
    elemRow (.mk "class" [("code", "A00")] "" [.mk "title" [] "Cholera" []])
        = some ("A00", "Cholera") ∧
      elemRow (.mk "class" [] "" [.mk "title" [] "A00 Cholera" []])
        = some ("A00", "Cholera") ∧
      remove_leading_code "A00 Cholera" = "Cholera" := ⟨rfl, rfl, rfl⟩

/-! ### save_to_formats (C10) -/

/-- C10. save_to_formats never fails on account of missing standardized
columns: for every DataFrame it writes exactly the subset of code,
description, last_updated that is present, always in that fixed order,
dropping every other column, to the base path with its suffix replaced
by .csv. -/
theorem save_to_formats_contract (df : DataFrame) (base : String) :
    save_to_formats df base =
      some (with_suffix_csv base,
        ⟨STD_COLS.filter (fun c => df.headers.contains c),
         df.rows.map (fun r =>
           (STD_COLS.filter (fun c => df.headers.contains c)).map
             (fun c => rowCell df r c))⟩) := by
  have hall : ((STD_COLS.filter (fun c => df.headers.contains c)).all
      (fun c => df.headers.contains c)) = true := by
    rw [List.all_eq_true]
    intro c hc
    exact (List.mem_filter.mp hc).2
  rw [save_to_formats, selectCols, if_pos hall]
  rfl

end MedicalCodex
